import Mathlib

/-!
Verification of the remote-reconstruction core of a sampling profiler
(`src/python_spy.rs`).  The Rust source is embedded shallowly: byte strings
become `List Nat` (one entry per byte, ASCII), machine integers become `Nat`,
fallible operations become `Option`/`Except Unit`, and the external
collaborators (process-memory reads, the stack walker, the memory map) become
explicit environment records of functions.
-/

namespace PySpy

/-- Version record, from `struct Version` in the source: three numeric
components plus a release-flags byte string. -/
structure Version where
  major : Nat
  minor : Nat
  patch : Nat
  release_flags : List Nat
deriving Repr, DecidableEq

/-- Byte is an ASCII decimal digit, the byte-level meaning of the regex
class `\d` used by `Version::scan_bytes`. -/
def isDigit (b : Nat) : Prop := 48 ≤ b ∧ b ≤ 57

instance (b : Nat) : Decidable (isDigit b) :=
  inferInstanceAs (Decidable (48 ≤ b ∧ b ≤ 57))

/-- Matches the final part of the version regex, a literal space followed by
`.{1,64}`: there must be a space byte and then at least one byte that is not
a newline. -/
def matchSpaceRest (s : List Nat) : Prop :=
  match s with
  | sp :: r1 :: _ => sp = 32 ∧ r1 ≠ 10
  | _ => False

instance (s : List Nat) : Decidable (matchSpaceRest s) := by
  unfold matchSpaceRest
  match s with
  | sp :: r1 :: _ => exact inferInstanceAs (Decidable (sp = 32 ∧ r1 ≠ 10))
  | [] => exact inferInstanceAs (Decidable False)
  | [sp] => exact inferInstanceAs (Decidable False)

/-- Matches the digit part of the optional release-flags group,
`\d{1,2}` followed by the mandatory space and trailing bytes.  The two-digit
form is preferred (greedy), falling back to one digit, exactly as the
backtracking regex engine would.  Returns the full captured flags (the given
letter bytes plus the matched digits). -/
def matchFlagDigits (pre : List Nat) (s : List Nat) : Option (List Nat) :=
  match s with
  | e1 :: rest =>
    if isDigit e1 then
      match rest with
      | e2 :: rest2 =>
        if isDigit e2 ∧ matchSpaceRest rest2 then some (pre ++ [e1, e2])
        else if matchSpaceRest rest then some (pre ++ [e1])
        else none
      | [] => none
    else none
  | [] => none

/-- Tries the alternation `(a|b|c|rc)` of the release-flags group at the head
of `s` (the four branches start with distinct bytes, so order is immaterial),
then the flag digits plus the mandatory tail. -/
def tryFlags (s : List Nat) : Option (List Nat) :=
  match s with
  | c :: r =>
    if c = 97 then matchFlagDigits [97] r
    else if c = 98 then matchFlagDigits [98] r
    else if c = 99 then matchFlagDigits [99] r
    else if c = 114 then
      match r with
      | c2 :: r2 => if c2 = 99 then matchFlagDigits [114, 99] r2 else none
      | [] => none
    else none
  | [] => none

/-- Matches `((a|b|c|rc)\d{1,2})? (.{1,64})`: first the non-empty flags group
(preferred by the regex engine), then the empty alternative.  Returns the
captured flags (empty list when the optional group matched nothing). -/
def matchTail (s : List Nat) : Option (List Nat) :=
  match tryFlags s with
  | some flags => some flags
  | none => if matchSpaceRest s then some [] else none

/-- Matches the regex core `(\d)\.(\d)\.(\d{1,2})((a|b|c|rc)\d{1,2})? (.{1,64})`
at the start of `s`, with the greedy two-digit patch preferred and the
one-digit patch as backtracking fallback.  Returns the parsed version. -/
def matchCore (s : List Nat) : Option Version :=
  match s with
  | d1 :: c1 :: d2 :: c2 :: p1 :: rest =>
    if isDigit d1 ∧ c1 = 46 ∧ isDigit d2 ∧ c2 = 46 ∧ isDigit p1 then
      match rest with
      | p2 :: rest2 =>
        if isDigit p2 then
          match matchTail rest2 with
          | some flags =>
            some ⟨d1 - 48, d2 - 48, (p1 - 48) * 10 + (p2 - 48), flags⟩
          | none =>
            match matchTail rest with
            | some flags => some ⟨d1 - 48, d2 - 48, p1 - 48, flags⟩
            | none => none
        else
          match matchTail rest with
          | some flags => some ⟨d1 - 48, d2 - 48, p1 - 48, flags⟩
          | none => none
      | [] => none
    else none
  | _ => none

/-- Scans for the leftmost match of the whole regex
`(?:\D|^)((\d)\.(\d)\.(\d{1,2}))((a|b|c|rc)\d{1,2})? (.{1,64})`.
The boolean records whether the current position is a legal start for the
core (the very start of the data, or just after a non-digit byte, which is
what the `(?:\D|^)` guard enforces). -/
def scanAux : Bool → List Nat → Option Version
  | ok, s =>
    match (if ok then matchCore s else none) with
    | some v => some v
    | none =>
      match s with
      | [] => none
      | b :: rest => scanAux (!(decide (isDigit b))) rest

/-- Model of `Version::scan_bytes`: find the first regex match in the data
and extract the version from the captures (the numeric captures are one or
two ASCII digits, so the `u64` parses always succeed). -/
def scan_bytes (data : List Nat) : Option Version :=
  scanAux true data

/-- Decimal byte string of a natural number, the bytes `Display for u64`
writes. -/
def natDecimal (n : Nat) : List Nat :=
  (Nat.toDigits 10 n).map Char.toNat

/-- Model of `impl Display for Version`: writes
`"{major}.{minor}.{patch}{release_flags}"`. -/
def fmtVersion (v : Version) : List Nat :=
  natDecimal v.major ++ [46] ++ natDecimal v.minor ++ [46] ++
    natDecimal v.patch ++ v.release_flags

/-- ASCII bytes of a Lean string literal, used to transcribe the byte-string
literals of the source's tests. -/
def strBytes (s : String) : List Nat :=
  s.toList.map Char.toNat

/-- Release-flags shapes the parser can produce: empty, or one of the letters
a, b, c or the pair rc, followed by one or two ASCII digits. -/
def validFlags (fl : List Nat) : Prop :=
  fl = [] ∨
  (∃ c d, (c = 97 ∨ c = 98 ∨ c = 99) ∧ isDigit d ∧
    (fl = [c, d] ∨ ∃ d2, isDigit d2 ∧ fl = [c, d, d2])) ∨
  (∃ d, isDigit d ∧
    (fl = [114, 99, d] ∨ ∃ d2, isDigit d2 ∧ fl = [114, 99, d, d2]))

/-- Versions in the range the parser can produce: single-digit major and
minor, at most two-digit patch, and valid release flags. -/
def validVersion (v : Version) : Prop :=
  v.major ≤ 9 ∧ v.minor ≤ 9 ∧ v.patch ≤ 99 ∧ validFlags v.release_flags

/-- Model of the Rust byte-slicing expression `&s[k..]`: dropping `k` leading
characters, failing (a panic in Rust) when `k` exceeds the length.  Strings
are modelled as character lists, which agrees with Rust's byte slicing on
the ASCII data the profiler handles. -/
def sliceFrom (s : List Char) (k : Nat) : Option (List Char) :=
  if k ≤ s.length then some (s.drop k) else none

/-- Characters of the literal `"lib"` tested by `shorten_filename`. -/
def libChars : List Char := ['l', 'i', 'b']

/-- Characters of the literal `"site-packages"` tested by
`shorten_filename`. -/
def siteChars : List Char := "site-packages".toList

/-- Model of `PythonSpy::shorten_filename`, parameterised by the session's
`python_install_path` and `version_string` fields.  Mirrors the source: if
the filename starts with the install path, drop it plus one character; then
if the remainder starts with `lib`, drop four characters, after which the
version-string prefix (plus one character) and the `site-packages` prefix
(plus one character, fourteen in total) are each conditionally dropped.
Returns `none` where the Rust slicing would panic. -/
def shorten_filename (ip vs : List Char) (f : List Char) : Option (List Char) :=
  if ip <+: f then
    match sliceFrom f (ip.length + 1) with
    | none => none
    | some f1 =>
      if libChars <+: f1 then
        match sliceFrom f1 4 with
        | none => none
        | some f2 =>
          match (if vs <+: f2 then sliceFrom f2 (vs.length + 1) else some f2) with
          | none => none
          | some f3 =>
            match (if siteChars <+: f3 then sliceFrom f3 14 else some f3) with
            | none => none
            | some f4 => some f4
      else some f1
  else some f

/-- Written from the claim's wording of the shortening steps (not from the
source): the second step strips the four-character prefix `lib/` only when
the remainder literally starts with `lib/`, leaving a remainder that starts
with `lib` but not `lib/` unchanged. -/
def shorten_filename_claim (ip vs : List Char) (f : List Char) : Option (List Char) :=
  if ip <+: f then
    match sliceFrom f (ip.length + 1) with
    | none => none
    | some f1 =>
      if libChars ++ ['/'] <+: f1 then
        match sliceFrom f1 4 with
        | none => none
        | some f2 =>
          match (if vs <+: f2 then sliceFrom f2 (vs.length + 1) else some f2) with
          | none => none
          | some f3 =>
            match (if siteChars <+: f3 then sliceFrom f3 14 else some f3) with
            | none => none
            | some f4 => some f4
      else some f1
  else some f

/-- Modelled from the spec: a region of the target's memory map as provided
by the external `proc_maps` collaborator, with its start and one-past-end
addresses. -/
structure MapRange where
  start : Nat
  stop : Nat
deriving Repr, DecidableEq

/-- Modelled from the spec: `maps_contain_addr` from the `proc_maps`
collaborator, true when the address lies inside some region of the map. -/
def maps_contain_addr (addr : Nat) (maps : List MapRange) : Bool :=
  maps.any (fun m => decide (m.start ≤ addr) && decide (addr < m.stop))

/-- Modelled from the spec: the fields of a remote `InterpreterState` object
the core dereferences, here just the `head()` pointer to the first
thread-state. -/
structure InterpState where
  head : Nat
deriving Repr, DecidableEq

/-- Modelled from the spec: the fields of a remote `ThreadState` object the
core dereferences, the `interp()` back-pointer and the `thread_id()`. -/
structure ThreadSt where
  interp : Nat
  thread_id : Nat
deriving Repr, DecidableEq

/-- Modelled from the spec: one stack frame of a trace as produced by the
external stack walker. -/
structure StackFrame where
  filename : List Char
  short_filename : Option (List Char)
  function : List Char
  line : Int
deriving Repr, DecidableEq

/-- Modelled from the spec: one per-thread stack trace as produced by the
external stack walker. -/
structure StackTrace where
  thread_id : Nat
  owns_gil : Bool
  frames : List StackFrame
deriving Repr, DecidableEq

/-- Parsed binary information, from `BinaryInfo` of the binary-parser
collaborator: BSS location and the symbol table. -/
structure BinInfo where
  bss_addr : Nat
  bss_size : Nat
  symbols : List (String × Nat)

/-- Process information, from `struct PythonProcessInfo`: the main binary,
the optional shared `libpython` binary, and the memory map. -/
structure ProcInfo where
  python_binary : BinInfo
  libpython_binary : Option BinInfo
  maps : List MapRange

/-- Modelled from the spec: the remote-read primitives (`copy_address`,
`copy_struct`, `copy_pointer`) and the external stack walker
(`stack_trace::get_stack_traces`), all of which live outside `src/`.  Each
is an arbitrary function of the environment; `readWords` is `copy_address`
composed with the source's reinterpretation of the copied bytes as
pointer-sized integers. -/
structure Env where
  readWord : Nat → Except Unit Nat
  readInterp : Nat → Except Unit InterpState
  readThread : Nat → Except Unit ThreadSt
  getStackTraces : InterpState → Except Unit (List StackTrace)
  readBytes : Nat → Nat → Except Unit (List Nat)
  readWords : Nat → Nat → Except Unit (List Nat)

/-- True when an `Except` value is a success, modelling Rust's
`Result::is_ok`. -/
def exceptIsOk {α : Type} (e : Except Unit α) : Bool :=
  match e with
  | .ok _ => true
  | .error _ => false

/-- Symbol lookup within one binary's symbol table. -/
def lookup_symbol (syms : List (String × Nat)) (name : String) : Option Nat :=
  (syms.find? (fun p => p.1 == name)).map (fun p => p.2)

/-- Model of `PythonProcessInfo::get_symbol`: first the main binary's
symbols, then the shared `libpython` binary's. -/
def get_symbol (info : ProcInfo) (name : String) : Option Nat :=
  match lookup_symbol info.python_binary.symbols name with
  | some addr => some addr
  | none =>
    match info.libpython_binary with
    | some lib => lookup_symbol lib.symbols name
    | none => none

/-- The loop of `check_addresses` over the candidate pointer-sized values
from the BSS: a candidate is accepted when it lies in the memory map, the
`InterpreterState` read at it has a `head()` pointer in the map, the
`ThreadState` read there points back at the candidate, and a full stack walk
succeeds; a failing remote read aborts the whole scan with an error. -/
def checkLoop (env : Env) (maps : List MapRange) : List Nat → Except Unit Nat
  | [] => .error ()
  | addr :: rest =>
    if maps_contain_addr addr maps then
      match env.readInterp addr with
      | .error e => .error e
      | .ok interp =>
        if maps_contain_addr interp.head maps then
          match env.readThread interp.head with
          | .error e => .error e
          | .ok thread =>
            if thread.interp = addr ∧ exceptIsOk (env.getStackTraces interp) = true then
              .ok addr
            else checkLoop env maps rest
        else checkLoop env maps rest
    else checkLoop env maps rest

/-- Model of `check_addresses`: copy the binary's BSS, view it as
pointer-sized values, and scan them for a valid `PyInterpreterState`
pointer. -/
def check_addresses (env : Env) (maps : List MapRange) (binary : BinInfo) :
    Except Unit Nat :=
  match env.readWords binary.bss_addr binary.bss_size with
  | .error e => .error e
  | .ok addrs => checkLoop env maps addrs

/-- Version ranges covered by the layout dispatch in
`get_interpreter_address_from_binary` (and `get_stack_traces`):
2.3 through 2.7 and 3.3 through 3.8. -/
def supported_version (v : Version) : Prop :=
  (v.major = 3 ∧ 3 ≤ v.minor ∧ v.minor ≤ 8) ∨
  (v.major = 2 ∧ 3 ≤ v.minor ∧ v.minor ≤ 7)

instance (v : Version) : Decidable (supported_version v) := by
  unfold supported_version
  infer_instance

/-- Model of `get_interpreter_address_from_binary`: dispatch on the version
to the scan (the layout choice is absorbed into the environment's read
functions), failing on unsupported versions. -/
def get_interpreter_address_from_binary (env : Env) (info : ProcInfo)
    (binary : BinInfo) (version : Version) : Except Unit Nat :=
  if supported_version version then check_addresses env info.maps binary
  else .error ()

/-- The symbolic strategy of `get_interpreter_address`: on 3.7 the address
`_PyRuntime + 24` (the `interpreters.head` field of the runtime singleton),
otherwise the `interp_head` symbol; `none` when the needed symbol is
absent. -/
def symbolic_address (info : ProcInfo) (v : Version) : Option Nat :=
  if v.major = 3 ∧ v.minor = 7 then
    (get_symbol info "_PyRuntime").map (fun a => a + 24)
  else
    get_symbol info "interp_head"

/-- Model of `get_interpreter_address`: dereference the symbolic address
when the symbol resolved (a failing read surfaces directly); otherwise scan
the main binary's BSS, and on any error of that scan retry on the shared
`libpython` BSS when one exists. -/
def get_interpreter_address (env : Env) (info : ProcInfo) (version : Version) :
    Except Unit Nat :=
  match symbolic_address info version with
  | some addr => env.readWord addr
  | none =>
    match get_interpreter_address_from_binary env info info.python_binary version with
    | .ok addr => .ok addr
    | .error err =>
      match info.libpython_binary with
      | some libpython =>
        get_interpreter_address_from_binary env info libpython version
      | none => .error err

/-- Model of `get_python_version`: prefer the `Py_GetVersion.version` symbol
(reading 128 bytes there), otherwise scan the main binary's BSS, and only
when that scan finds no version string retry on the shared `libpython` BSS;
read failures surface directly. -/
def get_python_version (env : Env) (info : ProcInfo) : Except Unit Version :=
  match get_symbol info "Py_GetVersion.version" with
  | some addr =>
    match env.readBytes addr 128 with
    | .error e => .error e
    | .ok data =>
      match scan_bytes data with
      | some v => .ok v
      | none => .error ()
  | none =>
    match env.readBytes info.python_binary.bss_addr info.python_binary.bss_size with
    | .error e => .error e
    | .ok bss =>
      match scan_bytes bss with
      | some v => .ok v
      | none =>
        match info.libpython_binary with
        | some libpython =>
          match env.readBytes libpython.bss_addr libpython.bss_size with
          | .error e => .error e
          | .ok bss2 =>
            match scan_bytes bss2 with
            | some v => .ok v
            | none => .error ()
        | none => .error ()

/-- The `threadstate_address` computed by `PythonSpy::new`: the address of
the `_PyThreadState_Current` symbol, or `0` when it is absent. -/
def threadstate_address_of (info : ProcInfo) : Nat :=
  match get_symbol info "_PyThreadState_Current" with
  | some addr => addr
  | none => 0

/-- The session fields of `struct PythonSpy` that `_get_stack_traces` and
`shorten_filename` consult. -/
structure SpyCfg where
  interpreter_address : Nat
  threadstate_address : Nat
  python_install_path : List Char
  version_string : List Char

/-- The GIL-holder id computed at the top of `_get_stack_traces`: start from
the sentinel `0`; when `threadstate_address` is nonzero, dereference it, and
when the pointer read there is nonzero read the `ThreadState` it points at
and take its `thread_id`.  Read failures propagate. -/
def gilThreadId (env : Env) (spy : SpyCfg) : Except Unit Nat :=
  if spy.threadstate_address > 0 then
    match env.readWord spy.threadstate_address with
    | .error e => .error e
    | .ok addr =>
      if addr ≠ 0 then
        match env.readThread addr with
        | .error e => .error e
        | .ok threadstate => .ok threadstate.thread_id
      else .ok 0
  else .ok 0

/-- The per-trace annotation loop body of `_get_stack_traces` applied to one
trace's frames: each frame's `short_filename` is set to the shortened
filename; a panic inside `shorten_filename` aborts (`none`). -/
def annotateFrames (spy : SpyCfg) : List StackFrame → Option (List StackFrame)
  | [] => some []
  | f :: rest =>
    match shorten_filename spy.python_install_path spy.version_string f.filename with
    | none => none
    | some s =>
      match annotateFrames spy rest with
      | none => none
      | some fs => some ({ f with short_filename := some s } :: fs)

/-- The annotation loop of `_get_stack_traces`: a trace whose `thread_id`
equals the GIL id gets `owns_gil := true` (other traces keep their flag),
and every frame receives its shortened filename. -/
def annotateTraces (spy : SpyCfg) (gid : Nat) :
    List StackTrace → Option (List StackTrace)
  | [] => some []
  | t :: rest =>
    match annotateFrames spy t.frames with
    | none => none
    | some fs =>
      match annotateTraces spy gid rest with
      | none => none
      | some ts =>
        some ({ t with owns_gil := t.owns_gil || t.thread_id == gid,
                       frames := fs } :: ts)

/-- Model of `PythonSpy::_get_stack_traces`: compute the GIL thread id, read
the `InterpreterState` at the session's interpreter address, run the
external stack walker, then annotate the traces. -/
def _get_stack_traces (env : Env) (spy : SpyCfg) :
    Except Unit (List StackTrace) :=
  match gilThreadId env spy with
  | .error e => .error e
  | .ok gid =>
    match env.readInterp spy.interpreter_address with
    | .error e => .error e
    | .ok interp =>
      match env.getStackTraces interp with
      | .error e => .error e
      | .ok traces =>
        match annotateTraces spy gid traces with
        | some ts => .ok ts
        | none => .error ()

/-- Modelled from the spec: the outcome of one construction-plus-smoke-test
attempt of `retry_new`.  Because the target process evolves between
attempts, the outcomes of `PythonSpy::new` and of the verifying
`get_stack_traces` call are indexed by the attempt number; the error type
is kept abstract. -/
structure RetryEnv (ε α : Type) where
  newAttempt : Nat → Except ε α
  smokeTest : Nat → α → Except ε Unit

/-- One iteration body of the `retry_new` loop: run `PythonSpy::new`; on
success run the smoke-test `get_stack_traces`; the session is returned only
when both succeed, otherwise the step's error is produced. -/
def attemptResult {ε α : Type} (env : RetryEnv ε α) (k : Nat) : Except ε α :=
  match env.newAttempt k with
  | .ok spy =>
    match env.smokeTest k spy with
    | .ok _ => .ok spy
    | .error e => .error e
  | .error e => .error e

/-- The loop of `PythonSpy::retry_new` with the retry counter `r`: attempt;
on success return the session; on failure stop with the error once
`r + 1 ≥ max_retries`, else sleep and go round again.  The extra fuel
argument (kept at least `max_retries - r`) only makes the recursion
structural; the `0` branch is reached exactly when the counter check stops
the loop at once (`max_retries = 0`). -/
def retryAux {ε α : Type} (env : RetryEnv ε α) (max_retries : Nat) :
    Nat → Nat → Except ε α
  | fuel, r =>
    match attemptResult env r with
    | .ok spy => .ok spy
    | .error e =>
      match fuel with
      | 0 => .error e
      | fuel' + 1 =>
        if r + 1 ≥ max_retries then .error e
        else retryAux env max_retries fuel' (r + 1)

/-- Model of `PythonSpy::retry_new` (the 20 ms sleeps between attempts are
not modelled). -/
def retry_new {ε α : Type} (env : RetryEnv ε α) (max_retries : Nat) :
    Except ε α :=
  retryAux env max_retries max_retries 0

/-- Concrete environment used to exhibit a successful BSS scan: the map is
one region, the second scanned word points at a consistent interpreter and
thread pair, and the stack walk succeeds. -/
def w1Env : Env where
  readWord := fun _ => .error ()
  readInterp := fun a => if a = 1500 then .ok ⟨1600⟩ else .error ()
  readThread := fun a => if a = 1600 then .ok ⟨1500, 42⟩ else .error ()
  getStackTraces := fun _ => .ok []
  readBytes := fun _ _ => .error ()
  readWords := fun _ _ => .ok [7, 1500]

/-- Fixed sample binary record for witnesses. -/
def w1Bin : BinInfo := ⟨4096, 16, []⟩

/-- Every address accepted by the candidate loop of the scan passed all four
structural checks. -/
theorem checkLoop_validates (env : Env) (maps : List MapRange)
    (addrs : List Nat) (p : Nat) (h : checkLoop env maps addrs = .ok p) :
    maps_contain_addr p maps = true ∧
    ∃ interp, env.readInterp p = .ok interp ∧
      maps_contain_addr interp.head maps = true ∧
      ∃ thread, env.readThread interp.head = .ok thread ∧
        thread.interp = p ∧ exceptIsOk (env.getStackTraces interp) = true := by
  induction addrs with
  | nil => simp [checkLoop] at h
  | cons a rest ih =>
    rw [checkLoop] at h
    by_cases hmap : maps_contain_addr a maps = true
    · rw [if_pos hmap] at h
      cases hI : env.readInterp a with
      | error e => simp [hI] at h
      | ok interp =>
        simp only [hI] at h
        by_cases hhd : maps_contain_addr interp.head maps = true
        · rw [if_pos hhd] at h
          cases hT : env.readThread interp.head with
          | error e => simp [hT] at h
          | ok thread =>
            simp only [hT] at h
            by_cases hacc : thread.interp = a ∧
                exceptIsOk (env.getStackTraces interp) = true
            · rw [if_pos hacc] at h
              cases h
              exact ⟨hmap, interp, hI, hhd, thread, hT, hacc.1, hacc.2⟩
            · rw [if_neg hacc] at h
              exact ih h
        · rw [if_neg hhd] at h
          exact ih h
    · rw [if_neg hmap] at h
      exact ih h

/-- C1: every candidate address accepted by the BSS scan `check_addresses`
lies in the memory map, the `InterpreterState` read there has a `head()`
thread pointer inside the map, the `ThreadState` read at that pointer has an
`interp()` back-pointer equal to the candidate, and a full stack walk from
the `InterpreterState` succeeded; any candidate failing one of these checks
is never returned. -/
theorem check_addresses_validates (env : Env) (maps : List MapRange)
    (binary : BinInfo) (p : Nat)
    (h : check_addresses env maps binary = .ok p) :
    maps_contain_addr p maps = true ∧
    ∃ interp, env.readInterp p = .ok interp ∧
      maps_contain_addr interp.head maps = true ∧
      ∃ thread, env.readThread interp.head = .ok thread ∧
        thread.interp = p ∧ exceptIsOk (env.getStackTraces interp) = true := by
  unfold check_addresses at h
  cases hW : env.readWords binary.bss_addr binary.bss_size with
  | error e => simp [hW] at h
  | ok addrs =>
    simp only [hW] at h
    exact checkLoop_validates env maps addrs p h

/-- Witness: the scan validation theorem applied to a concrete environment
whose second candidate word is accepted. -/
theorem check_addresses_validates_witness :
    maps_contain_addr 1500 [⟨1000, 2000⟩] = true ∧
    ∃ interp, w1Env.readInterp 1500 = .ok interp ∧
      maps_contain_addr interp.head [⟨1000, 2000⟩] = true ∧
      ∃ thread, w1Env.readThread interp.head = .ok thread ∧
        thread.interp = 1500 ∧
        exceptIsOk (w1Env.getStackTraces interp) = true :=
  check_addresses_validates w1Env [⟨1000, 2000⟩] w1Bin 1500 rfl

/-- C7: the parser's behaviour on the six concrete byte strings of the
source's version-detection tests, three successful parses and three
rejections. -/
theorem scan_bytes_concrete :
    scan_bytes (strBytes "2.7.10 (default, Oct  6 2017, 22:29:07)") =
      some ⟨2, 7, 10, []⟩ ∧
    scan_bytes (strBytes "3.6.3 |Anaconda custom (64-bit)| (default, Oct  6 2017, 12:04:38)") =
      some ⟨3, 6, 3, []⟩ ∧
    scan_bytes (strBytes "Python 3.7.0rc1 (v3.7.0rc1:dfad352267, Jul 20 2018, 13:27:54)") =
      some ⟨3, 7, 0, strBytes "rc1"⟩ ∧
    scan_bytes (strBytes "53.7.0rc1 (v53.7.0rc1:dfad352267, Jul 20 2018, 13:27:54)") = none ∧
    scan_bytes (strBytes "3.7 10 ") = none ∧
    scan_bytes (strBytes "3.7.10fooboo ") = none :=
  ⟨rfl, rfl, rfl, rfl, rfl, rfl⟩

/-- A successful slice is a suffix of the sliced string. -/
theorem sliceFrom_suffix {s t : List Char} {k : Nat}
    (h : sliceFrom s k = some t) : t <:+ s := by
  unfold sliceFrom at h
  split at h
  · cases h; exact List.drop_suffix _ _
  · cases h

/-- C4 (amended): whenever `shorten_filename` returns a value, that value is
a suffix of the input filename. -/
theorem shorten_filename_suffix (ip vs f r : List Char)
    (h : shorten_filename ip vs f = some r) : r <:+ f := by
  unfold shorten_filename at h
  split at h
  · cases hs1 : sliceFrom f (ip.length + 1) with
    | none => simp [hs1] at h
    | some f1 =>
      simp only [hs1] at h
      have sf1 : f1 <:+ f := sliceFrom_suffix hs1
      split at h
      · cases hs2 : sliceFrom f1 4 with
        | none => simp [hs2] at h
        | some f2 =>
          simp only [hs2] at h
          have sf2 : f2 <:+ f1 := sliceFrom_suffix hs2
          cases hs3 : (if vs <+: f2 then sliceFrom f2 (vs.length + 1) else some f2) with
          | none => simp [hs3] at h
          | some f3 =>
            simp only [hs3] at h
            have sf3 : f3 <:+ f2 := by
              revert hs3; split
              · exact fun hs3 => sliceFrom_suffix hs3
              · intro hs3; cases hs3; exact List.suffix_refl _
            cases hs4 : (if siteChars <+: f3 then sliceFrom f3 14 else some f3) with
            | none => simp [hs4] at h
            | some f4 =>
              simp only [hs4] at h
              have sf4 : f4 <:+ f3 := by
                revert hs4; split
                · exact fun hs4 => sliceFrom_suffix hs4
                · intro hs4; cases hs4; exact List.suffix_refl _
              cases h
              exact sf4.trans (sf3.trans (sf2.trans sf1))
      · cases h; exact sf1
  · cases h; exact List.suffix_refl _

/-- Witness: the suffix theorem applied to a shortening that strips the
install-path prefix. -/
theorem shorten_filename_suffix_witness :
    "a.py".toList <:+ "/x/a.py".toList :=
  shorten_filename_suffix "/x".toList "v".toList "/x/a.py".toList
    "a.py".toList rfl

/-- C4 counterexample: a filename equal to the install path makes the first
slice index run one past the end of the string, so the Rust code panics
instead of returning a value (the claim that the call always returns is
false). -/
theorem shorten_filename_panic_cex :
    shorten_filename "/opt/py".toList "python3.7".toList "/opt/py".toList =
      none := by
  decide

/-- The version-tag step of the amended shortening description: strip the
tag plus one separator character when it is a prefix. -/
def stripTag (vs s : List Char) : Option (List Char) :=
  if vs <+: s then sliceFrom s (vs.length + 1) else some s

/-- Written from the amended claim: the `site-packages` step, stripping the
thirteen-character prefix plus one separator character when it matches. -/
def stripSite (s : List Char) : Option (List Char) :=
  if siteChars <+: s then sliceFrom s 14 else some s

/-- Written from the amended claim's wording of the shortening steps: strip
the install root plus one character; inside that case, when the remainder
starts with `lib` (three characters, with any character after it) strip four
characters, and then apply the version-tag step and the `site-packages`
step in order. -/
def shorten_filename_amended (ip vs f : List Char) : Option (List Char) :=
  if ip <+: f then
    (sliceFrom f (ip.length + 1)).bind (fun f1 =>
      if libChars <+: f1 then
        (sliceFrom f1 4).bind (fun f2 => (stripTag vs f2).bind stripSite)
      else some f1)
  else some f

/-- C5 counterexample: the code strips four characters whenever the
remainder starts with `lib`, even when no separator follows (`libertine`),
whereas the claim's steps strip only a literal `lib/`; the two disagree on
this input, so the claim's step description is not the code's. -/
theorem shorten_filename_lib_cex :
    shorten_filename "/opt/py".toList "python3.7".toList
        "/opt/py/libertine/api.py".toList = some "rtine/api.py".toList ∧
    shorten_filename_claim "/opt/py".toList "python3.7".toList
        "/opt/py/libertine/api.py".toList = some "libertine/api.py".toList ∧
    shorten_filename "/opt/py".toList "python3.7".toList
        "/opt/py/libertine/api.py".toList ≠
      shorten_filename_claim "/opt/py".toList "python3.7".toList
        "/opt/py/libertine/api.py".toList := by
  refine ⟨by decide, by decide, by decide⟩

/-- C5 (amended): `shorten_filename` performs exactly the amended step
sequence (with the `lib` test stripping four characters), and on the
claim's concrete example — any version tag `v`, install root `/opt/py`,
filename `/opt/py/lib/<v>/site-packages/requests/api.py` — it returns
`requests/api.py`. -/
theorem shorten_filename_steps :
    (∀ ip vs f, shorten_filename ip vs f = shorten_filename_amended ip vs f) ∧
    (∀ v, shorten_filename "/opt/py".toList v
        ("/opt/py/lib/".toList ++ v ++ "/site-packages/requests/api.py".toList) =
      some "requests/api.py".toList) := by
  constructor
  · intro ip vs f
    unfold shorten_filename shorten_filename_amended stripTag stripSite
    by_cases h1 : ip <+: f
    · simp only [if_pos h1]
      cases hs1 : sliceFrom f (ip.length + 1) with
      | none => simp [hs1]
      | some f1 =>
        simp only [hs1, Option.some_bind]
        by_cases h2 : libChars <+: f1
        · simp only [if_pos h2]
          cases hs2 : sliceFrom f1 4 with
          | none => simp [hs2]
          | some f2 =>
            simp only [hs2, Option.some_bind]
            cases hs3 : (if vs <+: f2 then sliceFrom f2 (vs.length + 1) else some f2) with
            | none => simp [hs3]
            | some f3 =>
              simp only [hs3, Option.some_bind]
              cases hs4 : (if siteChars <+: f3 then sliceFrom f3 14 else some f3) with
              | none => simp [hs4]
              | some f4 => simp [hs4]
        · simp only [if_neg h2]
    · simp only [if_neg h1]
  · intro v
    have hpre : "/opt/py".toList <+:
        ("/opt/py/lib/".toList ++ v ++ "/site-packages/requests/api.py".toList) := by
      rw [show "/opt/py/lib/".toList = "/opt/py".toList ++ "/lib/".toList from rfl]
      simp only [List.append_assoc]
      exact List.prefix_append _ _
    have lenA : ("/opt/py".toList).length = 7 := rfl
    have lenL : ("/opt/py/lib/".toList).length = 12 := rfl
    have lenR : ("/site-packages/requests/api.py".toList).length = 30 := rfl
    have lenLib : libChars.length = 3 := rfl
    have hs1 : sliceFrom
        ("/opt/py/lib/".toList ++ v ++ "/site-packages/requests/api.py".toList)
        (("/opt/py".toList).length + 1) =
        some (libChars ++ ('/' :: (v ++ "/site-packages/requests/api.py".toList))) := by
      unfold sliceFrom
      rw [if_pos ?hlen1]
      case hlen1 =>
        simp only [List.length_append]
        omega
      congr 1
    have hs2 : sliceFrom
        (libChars ++ ('/' :: (v ++ "/site-packages/requests/api.py".toList))) 4 =
        some (v ++ "/site-packages/requests/api.py".toList) := by
      unfold sliceFrom
      rw [if_pos ?hlen2]
      case hlen2 =>
        simp only [List.length_append, List.length_cons]
        omega
      congr 1
    have hs3 : sliceFrom (v ++ "/site-packages/requests/api.py".toList)
        (v.length + 1) = some ("site-packages/requests/api.py".toList) := by
      unfold sliceFrom
      rw [if_pos ?hlen3]
      case hlen3 =>
        simp only [List.length_append]
        omega
      congr 1
      rw [List.drop_append 1]
      rfl
    have hs4 : sliceFrom ("site-packages/requests/api.py".toList) 14 =
        some ("requests/api.py".toList) := by decide
    unfold shorten_filename
    rw [if_pos hpre]
    simp only [hs1]
    rw [if_pos (List.prefix_append libChars _)]
    simp only [hs2]
    rw [if_pos (List.prefix_append v _)]
    simp only [hs3]
    rw [if_pos (by decide : siteChars <+: "site-packages/requests/api.py".toList)]
    simp only [hs4]

/-- Successful annotation rewrites each trace's `owns_gil` flag to the old
flag or-ed with the comparison of its `thread_id` against the GIL id, and
keeps the `thread_id` itself. -/
theorem annotateTraces_ids (spy : SpyCfg) (gid : Nat) (ts out : List StackTrace)
    (h : annotateTraces spy gid ts = some out) :
    out.map (fun t => (t.thread_id, t.owns_gil)) =
      ts.map (fun t => (t.thread_id, t.owns_gil || (t.thread_id == gid))) := by
  induction ts generalizing out with
  | nil =>
    rw [annotateTraces] at h
    cases h
    rfl
  | cons t rest ih =>
    rw [annotateTraces] at h
    cases hf : annotateFrames spy t.frames with
    | none => simp [hf] at h
    | some fs =>
      simp only [hf] at h
      cases hr : annotateTraces spy gid rest with
      | none => simp [hr] at h
      | some ts2 =>
        simp only [hr] at h
        cases h
        simp only [List.map_cons]
        rw [ih ts2 hr]

/-- Successful annotation of walker traces whose flags all start out false
sets exactly as many `owns_gil` flags as there are traces whose `thread_id`
equals the GIL id. -/
theorem annotateTraces_countP (spy : SpyCfg) (gid : Nat) (ts out : List StackTrace)
    (h : annotateTraces spy gid ts = some out)
    (hfalse : ∀ t ∈ ts, t.owns_gil = false) :
    out.countP (fun t => t.owns_gil) = ts.countP (fun t => t.thread_id == gid) := by
  induction ts generalizing out with
  | nil =>
    rw [annotateTraces] at h
    cases h
    rfl
  | cons t rest ih =>
    rw [annotateTraces] at h
    cases hf : annotateFrames spy t.frames with
    | none => simp [hf] at h
    | some fs =>
      simp only [hf] at h
      cases hr : annotateTraces spy gid rest with
      | none => simp [hr] at h
      | some ts2 =>
        simp only [hr] at h
        cases h
        rw [List.countP_cons, List.countP_cons,
          ih ts2 hr (fun b hb => hfalse b (List.mem_cons_of_mem t hb))]
        have ht : t.owns_gil = false := hfalse t (List.mem_cons_self t rest)
        simp [ht]

/-- A list of traces with pairwise distinct thread ids contains at most one
trace with any given id. -/
theorem countP_thread_id_le_one (l : List StackTrace) (gid : Nat)
    (hdist : l.Pairwise (fun a b => a.thread_id ≠ b.thread_id)) :
    l.countP (fun t => t.thread_id == gid) ≤ 1 := by
  induction l with
  | nil => simp
  | cons a rest ih =>
    rw [List.pairwise_cons] at hdist
    obtain ⟨ha, hrest⟩ := hdist
    rw [List.countP_cons]
    by_cases h : a.thread_id = gid
    · have hz : rest.countP (fun t => t.thread_id == gid) = 0 := by
        rw [List.countP_eq_zero]
        intro b hb
        simp only [beq_iff_eq]
        intro hc
        exact ha b hb (hc ▸ h)
      rw [hz]
      simp [h]
    · have hfalse : (a.thread_id == gid) = false := by
        simp [h]
      rw [hfalse]
      simpa using ih hrest

/-- A successful `_get_stack_traces` run on walker output `traces` produces
traces marked against the computed GIL thread id. -/
theorem get_stack_traces_marking (env : Env) (spy : SpyCfg)
    (interp : InterpState) (traces out : List StackTrace)
    (hI : env.readInterp spy.interpreter_address = .ok interp)
    (hW : env.getStackTraces interp = .ok traces)
    (hout : _get_stack_traces env spy = .ok out) :
    ∃ gid, gilThreadId env spy = .ok gid ∧
      out.map (fun t => (t.thread_id, t.owns_gil)) =
        traces.map (fun t => (t.thread_id, t.owns_gil || (t.thread_id == gid))) := by
  unfold _get_stack_traces at hout
  cases hg : gilThreadId env spy with
  | error e => simp [hg] at hout
  | ok gid =>
    simp only [hg, hI, hW] at hout
    cases ha : annotateTraces spy gid traces with
    | none => simp [ha] at hout
    | some ts2 =>
      simp only [ha] at hout
      cases hout
      exact ⟨gid, rfl, annotateTraces_ids spy gid traces out ha⟩

/-- Concrete environment whose walker returns two traces with the same
thread id, equal to the current GIL holder's id. -/
def c2Env : Env where
  readWord := fun a => if a = 5 then .ok 10 else .error ()
  readInterp := fun a => if a = 100 then .ok ⟨0⟩ else .error ()
  readThread := fun a => if a = 10 then .ok ⟨0, 7⟩ else .error ()
  getStackTraces := fun _ => .ok [⟨7, false, []⟩, ⟨7, false, []⟩]
  readBytes := fun _ _ => .error ()
  readWords := fun _ _ => .error ()

/-- Session configuration matching `c2Env`. -/
def c2Spy : SpyCfg := ⟨100, 5, [], []⟩

/-- C2 counterexample: when the walker reports two traces carrying the same
thread id as the GIL holder, the annotation loop marks both, so a
successful `get_stack_traces` call can return more than one trace with
`owns_gil = true`. -/
theorem gil_two_traces_cex :
    _get_stack_traces c2Env c2Spy = .ok [⟨7, true, []⟩, ⟨7, true, []⟩] ∧
    ¬ (List.countP (fun t => t.owns_gil)
        [(⟨7, true, []⟩ : StackTrace), ⟨7, true, []⟩] ≤ 1) :=
  ⟨rfl, by decide⟩

/-- C2 (amended): when the walker's traces carry pairwise distinct thread
ids and initially unset `owns_gil` flags, a successful `get_stack_traces`
call returns at most one trace with `owns_gil = true`. -/
theorem at_most_one_gil_of_distinct (env : Env) (spy : SpyCfg)
    (interp : InterpState) (traces out : List StackTrace)
    (hI : env.readInterp spy.interpreter_address = .ok interp)
    (hW : env.getStackTraces interp = .ok traces)
    (hfalse : ∀ t ∈ traces, t.owns_gil = false)
    (hdist : traces.Pairwise (fun a b => a.thread_id ≠ b.thread_id))
    (hout : _get_stack_traces env spy = .ok out) :
    out.countP (fun t => t.owns_gil) ≤ 1 := by
  unfold _get_stack_traces at hout
  cases hg : gilThreadId env spy with
  | error e => simp [hg] at hout
  | ok gid =>
    simp only [hg, hI, hW] at hout
    cases ha : annotateTraces spy gid traces with
    | none => simp [ha] at hout
    | some ts2 =>
      simp only [ha] at hout
      cases hout
      rw [annotateTraces_countP spy gid traces out ha hfalse]
      exact countP_thread_id_le_one traces gid hdist

/-- Environment for the witness of the amended C2 theorem: two walker
traces with distinct thread ids, of which the first holds the GIL. -/
def c2wEnv : Env where
  readWord := fun a => if a = 5 then .ok 10 else .error ()
  readInterp := fun a => if a = 100 then .ok ⟨0⟩ else .error ()
  readThread := fun a => if a = 10 then .ok ⟨0, 7⟩ else .error ()
  getStackTraces := fun _ => .ok [⟨7, false, []⟩, ⟨8, false, []⟩]
  readBytes := fun _ _ => .error ()
  readWords := fun _ _ => .error ()

/-- Witness: the amended C2 theorem applied to a concrete two-thread
sample. -/
theorem at_most_one_gil_witness :
    List.countP (fun t => t.owns_gil)
      [(⟨7, true, []⟩ : StackTrace), ⟨8, false, []⟩] ≤ 1 :=
  at_most_one_gil_of_distinct c2wEnv c2Spy ⟨0⟩
    [⟨7, false, []⟩, ⟨8, false, []⟩] [⟨7, true, []⟩, ⟨8, false, []⟩]
    rfl rfl (by decide) (by decide) rfl

/-- Environment for the C3 counterexample: no current-thread symbol was
resolved (`threadstate_address = 0`) and the walker reports a thread whose
id happens to be `0`. -/
def c3Env : Env where
  readWord := fun _ => .error ()
  readInterp := fun _ => .ok ⟨0⟩
  readThread := fun _ => .error ()
  getStackTraces := fun _ => .ok [⟨0, false, []⟩]
  readBytes := fun _ _ => .error ()
  readWords := fun _ _ => .error ()

/-- Session configuration for the C3 counterexample: absent
`_PyThreadState_Current` symbol, hence address `0`. -/
def c3Spy : SpyCfg := ⟨100, 0, [], []⟩

/-- C3 counterexample: with the symbol absent the code compares thread ids
against the sentinel `0`, so a trace whose `thread_id` is `0` is still
marked `owns_gil = true`, contradicting the claim that no trace is marked
in that case. -/
theorem gil_sentinel_zero_cex :
    c3Spy.threadstate_address = 0 ∧
    _get_stack_traces c3Env c3Spy = .ok [⟨0, true, []⟩] :=
  ⟨rfl, rfl⟩

/-- C3 (amended): a successful `get_stack_traces` call on walker output
`traces` marks `owns_gil` on exactly the traces whose `thread_id` equals
the comparison id: the dereferenced current thread-state's `thread_id` when
the symbol resolved to a nonzero address and the pointer read there is
non-null, and the sentinel `0` (so ids equal to `0` still match) when the
symbol was absent or the pointer was null. -/
theorem gil_marking_characterization (env : Env) (spy : SpyCfg)
    (info : ProcInfo) (interp : InterpState) (traces out : List StackTrace)
    (hts : spy.threadstate_address = threadstate_address_of info)
    (hI : env.readInterp spy.interpreter_address = .ok interp)
    (hW : env.getStackTraces interp = .ok traces)
    (hout : _get_stack_traces env spy = .ok out) :
    (get_symbol info "_PyThreadState_Current" = none →
      out.map (fun t => (t.thread_id, t.owns_gil)) =
        traces.map (fun t => (t.thread_id, t.owns_gil || (t.thread_id == 0)))) ∧
    (∀ addr, get_symbol info "_PyThreadState_Current" = some addr → addr ≠ 0 →
      env.readWord addr = .ok 0 →
      out.map (fun t => (t.thread_id, t.owns_gil)) =
        traces.map (fun t => (t.thread_id, t.owns_gil || (t.thread_id == 0)))) ∧
    (∀ addr p th, get_symbol info "_PyThreadState_Current" = some addr →
      addr ≠ 0 → env.readWord addr = .ok p → p ≠ 0 →
      env.readThread p = .ok th →
      out.map (fun t => (t.thread_id, t.owns_gil)) =
        traces.map (fun t =>
          (t.thread_id, t.owns_gil || (t.thread_id == th.thread_id)))) := by
  obtain ⟨gid, hgid, hmap⟩ :=
    get_stack_traces_marking env spy interp traces out hI hW hout
  refine ⟨?_, ?_, ?_⟩
  · intro hsym
    have hts0 : spy.threadstate_address = 0 := by
      unfold threadstate_address_of at hts
      rw [hsym] at hts
      exact hts
    have hg0 : gilThreadId env spy = .ok 0 := by
      unfold gilThreadId
      rw [hts0]
      simp
    rw [hg0] at hgid
    cases hgid
    exact hmap
  · intro addr hsym haddr hread
    have htsa : spy.threadstate_address = addr := by
      unfold threadstate_address_of at hts
      rw [hsym] at hts
      exact hts
    have hg0 : gilThreadId env spy = .ok 0 := by
      unfold gilThreadId
      rw [htsa]
      rw [if_pos (Nat.pos_of_ne_zero haddr)]
      simp only [hread]
      simp
    rw [hg0] at hgid
    cases hgid
    exact hmap
  · intro addr p th hsym haddr hread hp hth
    have htsa : spy.threadstate_address = addr := by
      unfold threadstate_address_of at hts
      rw [hsym] at hts
      exact hts
    have hg : gilThreadId env spy = .ok th.thread_id := by
      unfold gilThreadId
      rw [htsa]
      rw [if_pos (Nat.pos_of_ne_zero haddr)]
      simp only [hread]
      rw [if_pos hp]
      simp only [hth]
    rw [hg] at hgid
    cases hgid
    exact hmap

/-- Environment for the witness of the amended C3 theorem: the symbol
resolves, the current thread-state pointer is non-null, and the walker
returns one trace with the matching id. -/
def c3wEnv : Env where
  readWord := fun a => if a = 5 then .ok 10 else .error ()
  readInterp := fun a => if a = 100 then .ok ⟨0⟩ else .error ()
  readThread := fun a => if a = 10 then .ok ⟨0, 7⟩ else .error ()
  getStackTraces := fun _ => .ok [⟨7, false, []⟩]
  readBytes := fun _ _ => .error ()
  readWords := fun _ _ => .error ()

/-- Process info for the C3 witness: the current-thread symbol resolves to
address 5. -/
def c3wInfo : ProcInfo :=
  ⟨⟨0, 0, [("_PyThreadState_Current", 5)]⟩, none, []⟩

/-- Session configuration for the C3 witness. -/
def c3wSpy : SpyCfg := ⟨100, 5, [], []⟩

/-- Witness: the amended C3 theorem applied to a concrete session where the
current-thread symbol resolves and the single matching trace is marked. -/
theorem gil_marking_characterization_witness :
    [(⟨7, true, []⟩ : StackTrace)].map (fun t => (t.thread_id, t.owns_gil)) =
      [(⟨7, false, []⟩ : StackTrace)].map (fun t =>
        (t.thread_id, t.owns_gil ||
          (t.thread_id == (⟨0, 7⟩ : ThreadSt).thread_id))) :=
  (gil_marking_characterization c3wEnv c3wSpy c3wInfo ⟨0⟩
      [⟨7, false, []⟩] [⟨7, true, []⟩] rfl rfl rfl rfl).2.2
    5 10 ⟨0, 7⟩ rfl (by decide) rfl (by decide) rfl

/-- Environment for the C8 counterexample: the `_PyRuntime` symbol is
present but dereferencing it fails, while the BSS scan would have found a
valid interpreter. -/
def c8Env : Env where
  readWord := fun _ => .error ()
  readInterp := fun a => if a = 1500 then .ok ⟨1600⟩ else .error ()
  readThread := fun a => if a = 1600 then .ok ⟨1500, 42⟩ else .error ()
  getStackTraces := fun _ => .ok []
  readBytes := fun _ _ => .error ()
  readWords := fun _ _ => .ok [1500]

/-- Process info for the C8 counterexample: `_PyRuntime` resolved in the
main binary, one mapped region covering the scan candidate. -/
def c8Info : ProcInfo :=
  ⟨⟨4096, 16, [("_PyRuntime", 100)]⟩, none, [⟨1000, 2000⟩]⟩

/-- C8 counterexample: a failing remote read during the symbolic strategy
is surfaced directly — `get_interpreter_address` errors even though the
BSS scan of the main binary would have succeeded, so not every recoverable
failure is absorbed by a fallback. -/
theorem interpreter_address_surfaces_read_error_cex :
    get_interpreter_address c8Env c8Info ⟨3, 7, 0, []⟩ = .error () ∧
    get_interpreter_address_from_binary c8Env c8Info c8Info.python_binary
      ⟨3, 7, 0, []⟩ = .ok 1500 :=
  ⟨rfl, rfl⟩

/-- C8 (amended): a missing symbol falls back to the BSS scan; an error of
the main binary's scan falls back to the shared `libpython` scan when one
exists; version detection falls back to the shared BSS when the main BSS
contains no version string; but when the symbolic strategy's symbol is
present, its dereference is returned directly, so its read failure
surfaces without attempting the scan. -/
theorem interpreter_location_fallback (env : Env) (info : ProcInfo)
    (v : Version) :
    (symbolic_address info v = none →
      ∀ a, get_interpreter_address_from_binary env info info.python_binary v =
          .ok a →
        get_interpreter_address env info v = .ok a) ∧
    (symbolic_address info v = none →
      ∀ e lib,
        get_interpreter_address_from_binary env info info.python_binary v =
          .error e →
        info.libpython_binary = some lib →
        get_interpreter_address env info v =
          get_interpreter_address_from_binary env info lib v) ∧
    (∀ addr, symbolic_address info v = some addr →
      get_interpreter_address env info v = env.readWord addr) ∧
    (get_symbol info "Py_GetVersion.version" = none →
      ∀ data lib data2 ver,
        env.readBytes info.python_binary.bss_addr
          info.python_binary.bss_size = .ok data →
        scan_bytes data = none →
        info.libpython_binary = some lib →
        env.readBytes lib.bss_addr lib.bss_size = .ok data2 →
        scan_bytes data2 = some ver →
        get_python_version env info = .ok ver) := by
  refine ⟨?_, ?_, ?_, ?_⟩
  · intro hs a hmain
    unfold get_interpreter_address
    simp only [hs, hmain]
  · intro hs e lib hmain hlib
    unfold get_interpreter_address
    simp only [hs, hmain, hlib]
  · intro addr hs
    unfold get_interpreter_address
    simp only [hs]
  · intro hsym data lib data2 ver h1 h2 h3 h4 h5
    unfold get_python_version
    simp only [hsym, h1, h2, h3, h4, h5]

/-- Witness: the amended C8 theorem's symbolic conjunct applied to the
concrete environment where `_PyRuntime` resolves to address 100. -/
theorem interpreter_location_fallback_witness :
    get_interpreter_address c8Env c8Info ⟨3, 7, 0, []⟩ =
      c8Env.readWord 124 :=
  (interpreter_location_fallback c8Env c8Info ⟨3, 7, 0, []⟩).2.2.1 124 rfl

/-- Soundness of the retry loop's success case: if attempt `k` is the first
to succeed and it is within the attempt budget, the loop starting at
counter `r` returns that session. -/
theorem retryAux_ok {ε α : Type} (env : RetryEnv ε α) (mr : Nat) :
    ∀ fuel r k spy, mr ≤ r + fuel → r ≤ k → k < max mr (r + 1) →
      attemptResult env k = .ok spy →
      (∀ j, r ≤ j → j < k → ∃ e, attemptResult env j = .error e) →
      retryAux env mr fuel r = .ok spy := by
  intro fuel
  induction fuel with
  | zero =>
    intro r k spy hinv hrk hklt hk hj
    have hkr : k = r := by omega
    subst hkr
    rw [retryAux, hk]
  | succ f ih =>
    intro r k spy hinv hrk hklt hk hj
    by_cases hkr : k = r
    · subst hkr
      rw [retryAux, hk]
    · have hgt : r < k := by omega
      obtain ⟨e0, he0⟩ := hj r (Nat.le_refl r) hgt
      rw [retryAux]
      simp only [he0]
      have hlt : ¬ (r + 1 ≥ mr) := by omega
      rw [if_neg hlt]
      exact ih (r + 1) k spy (by omega) (by omega) (by omega) hk
        (fun j h1 h2 => hj j (by omega) h2)

/-- Soundness of the retry loop's failure case: if every attempt within the
budget fails and the final one fails with `e`, the loop returns `e`. -/
theorem retryAux_err {ε α : Type} (env : RetryEnv ε α) (mr : Nat) :
    ∀ fuel r e, mr ≤ r + fuel →
      attemptResult env (max mr (r + 1) - 1) = .error e →
      (∀ j, r ≤ j → j < max mr (r + 1) → ∃ e2, attemptResult env j = .error e2) →
      retryAux env mr fuel r = .error e := by
  intro fuel
  induction fuel with
  | zero =>
    intro r e hinv hlast hall
    have hmax : max mr (r + 1) = r + 1 := by omega
    rw [hmax] at hlast
    simp only [Nat.add_sub_cancel] at hlast
    rw [retryAux, hlast]
  | succ f ih =>
    intro r e hinv hlast hall
    by_cases hge : mr ≤ r + 1
    · have hmax : max mr (r + 1) = r + 1 := by omega
      rw [hmax] at hlast
      simp only [Nat.add_sub_cancel] at hlast
      rw [retryAux]
      simp only [hlast]
      rw [if_pos (by omega : r + 1 ≥ mr)]
    · have hmax : max mr (r + 1) = mr := by omega
      obtain ⟨e0, he0⟩ := hall r (Nat.le_refl r) (by rw [hmax]; omega)
      rw [retryAux]
      simp only [he0]
      rw [if_neg (by omega : ¬ r + 1 ≥ mr)]
      have hmax2 : max mr (r + 1 + 1) = mr := by omega
      refine ih (r + 1) e (by omega) ?_ ?_
      · rw [hmax2]
        rw [hmax] at hlast
        exact hlast
      · intro j h1 h2
        rw [hmax2] at h2
        refine hall j (by omega) ?_
        rw [hmax]
        omega

/-- C9: `retry_new` runs construction-plus-smoke-test attempts with the
budget `max max_retries 1`; it returns the session of the first successful
attempt, and when every attempt in the budget fails it returns the error of
the last attempt. -/
theorem retry_new_spec {ε α : Type} (env : RetryEnv ε α) (mr : Nat) :
    (∀ k spy, k < max mr 1 → attemptResult env k = .ok spy →
      (∀ j, j < k → ∃ e, attemptResult env j = .error e) →
      retry_new env mr = .ok spy) ∧
    (∀ e, attemptResult env (max mr 1 - 1) = .error e →
      (∀ j, j < max mr 1 → ∃ e2, attemptResult env j = .error e2) →
      retry_new env mr = .error e) := by
  constructor
  · intro k spy hk hok hj
    exact retryAux_ok env mr mr 0 k spy (by omega) (Nat.zero_le k) hk hok
      (fun j h1 h2 => hj j h2)
  · intro e hlast hall
    exact retryAux_err env mr mr 0 e (by omega) hlast
      (fun j h1 h2 => hall j h2)

/-- Concrete retry environment whose first attempt fails and second attempt
produces session `7`. -/
def c9Env : RetryEnv Nat Nat where
  newAttempt := fun k => if k = 0 then .error 11 else .ok 7
  smokeTest := fun _ _ => .ok ()

/-- Witness: the retry theorem applied to the concrete schedule — with a
budget of 3 the loop returns the session of the second attempt. -/
theorem retry_new_spec_witness : retry_new c9Env 3 = .ok 7 :=
  (retry_new_spec c9Env 3).1 1 7 (by omega) rfl
    (fun j hj => by
      interval_cases j
      exact ⟨11, rfl⟩)

/-- A successful flag-digit match appends one or two digit bytes to the
letter prefix. -/
theorem matchFlagDigits_shape (pre s fl : List Nat)
    (h : matchFlagDigits pre s = some fl) :
    (∃ e1, isDigit e1 ∧ fl = pre ++ [e1]) ∨
    (∃ e1 e2, isDigit e1 ∧ isDigit e2 ∧ fl = pre ++ [e1, e2]) := by
  cases s with
  | nil => simp [matchFlagDigits] at h
  | cons e1 rest =>
    cases rest with
    | nil => simp [matchFlagDigits] at h
    | cons e2 rest2 =>
      have h' : (if isDigit e1 then
          (if isDigit e2 ∧ matchSpaceRest rest2 then some (pre ++ [e1, e2])
           else if matchSpaceRest (e2 :: rest2) then some (pre ++ [e1])
           else none)
        else none) = some fl := h
      by_cases hd1 : isDigit e1
      · rw [if_pos hd1] at h'
        by_cases hcond : isDigit e2 ∧ matchSpaceRest rest2
        · rw [if_pos hcond] at h'
          cases h'
          exact Or.inr ⟨e1, e2, hd1, hcond.1, rfl⟩
        · rw [if_neg hcond] at h'
          by_cases hsp : matchSpaceRest (e2 :: rest2)
          · rw [if_pos hsp] at h'
            cases h'
            exact Or.inl ⟨e1, hd1, rfl⟩
          · rw [if_neg hsp] at h'
            cases h'
      · rw [if_neg hd1] at h'
        cases h'

/-- Any flags captured by the alternation have one of the shapes the claim
describes. -/
theorem tryFlags_valid (s fl : List Nat) (h : tryFlags s = some fl) :
    validFlags fl := by
  cases s with
  | nil => simp [tryFlags] at h
  | cons c r =>
    simp only [tryFlags] at h
    by_cases h97 : c = 97
    · rw [if_pos h97] at h
      rcases matchFlagDigits_shape _ _ _ h with ⟨e1, hd, rfl⟩ | ⟨e1, e2, hd1, hd2, rfl⟩
      · exact Or.inr (Or.inl ⟨97, e1, Or.inl rfl, hd, Or.inl rfl⟩)
      · exact Or.inr (Or.inl ⟨97, e1, Or.inl rfl, hd1, Or.inr ⟨e2, hd2, rfl⟩⟩)
    · rw [if_neg h97] at h
      by_cases h98 : c = 98
      · rw [if_pos h98] at h
        rcases matchFlagDigits_shape _ _ _ h with ⟨e1, hd, rfl⟩ | ⟨e1, e2, hd1, hd2, rfl⟩
        · exact Or.inr (Or.inl ⟨98, e1, Or.inr (Or.inl rfl), hd, Or.inl rfl⟩)
        · exact Or.inr (Or.inl ⟨98, e1, Or.inr (Or.inl rfl), hd1, Or.inr ⟨e2, hd2, rfl⟩⟩)
      · rw [if_neg h98] at h
        by_cases h99 : c = 99
        · rw [if_pos h99] at h
          rcases matchFlagDigits_shape _ _ _ h with ⟨e1, hd, rfl⟩ | ⟨e1, e2, hd1, hd2, rfl⟩
          · exact Or.inr (Or.inl ⟨99, e1, Or.inr (Or.inr rfl), hd, Or.inl rfl⟩)
          · exact Or.inr (Or.inl ⟨99, e1, Or.inr (Or.inr rfl), hd1, Or.inr ⟨e2, hd2, rfl⟩⟩)
        · rw [if_neg h99] at h
          by_cases h114 : c = 114
          · rw [if_pos h114] at h
            cases r with
            | nil => simp at h
            | cons c2 r2 =>
              have h' : (if c2 = 99 then matchFlagDigits [114, 99] r2
                  else none) = some fl := h
              by_cases hc2 : c2 = 99
              · rw [if_pos hc2] at h'
                rcases matchFlagDigits_shape _ _ _ h' with ⟨e1, hd, rfl⟩ | ⟨e1, e2, hd1, hd2, rfl⟩
                · exact Or.inr (Or.inr ⟨e1, hd, Or.inl rfl⟩)
                · exact Or.inr (Or.inr ⟨e1, hd1, Or.inr ⟨e2, hd2, rfl⟩⟩)
              · rw [if_neg hc2] at h'
                cases h'
          · rw [if_neg h114] at h
            cases h

/-- Any flags produced by the optional release-flags group are valid. -/
theorem matchTail_valid (s fl : List Nat) (h : matchTail s = some fl) :
    validFlags fl := by
  unfold matchTail at h
  cases ht : tryFlags s with
  | some f2 =>
    simp only [ht] at h
    cases h
    exact tryFlags_valid s _ ht
  | none =>
    simp only [ht] at h
    by_cases hsp : matchSpaceRest s
    · rw [if_pos hsp] at h
      cases h
      exact Or.inl rfl
    · rw [if_neg hsp] at h
      cases h

/-- Every version produced by the regex core has single-digit major and
minor, at most two-digit patch, and valid flags. -/
theorem matchCore_bounds (s : List Nat) (v : Version)
    (h : matchCore s = some v) :
    v.major ≤ 9 ∧ v.minor ≤ 9 ∧ v.patch ≤ 99 ∧ validFlags v.release_flags := by
  rcases s with _ | ⟨d1, _ | ⟨c1, _ | ⟨d2, _ | ⟨c2, _ | ⟨p1, rest⟩⟩⟩⟩⟩
  · simp [matchCore] at h
  · simp [matchCore] at h
  · simp [matchCore] at h
  · simp [matchCore] at h
  · simp [matchCore] at h
  · simp only [matchCore] at h
    by_cases hg : isDigit d1 ∧ c1 = 46 ∧ isDigit d2 ∧ c2 = 46 ∧ isDigit p1
    case neg =>
      rw [if_neg hg] at h
      cases h
    case pos =>
      rw [if_pos hg] at h
      obtain ⟨⟨h1a, h1b⟩, hc1, ⟨h2a, h2b⟩, hc2, h3a, h3b⟩ := hg
      cases rest with
      | nil => simp at h
      | cons p2 rest2 =>
        have h' : (if isDigit p2 then
            (match matchTail rest2 with
             | some flags =>
               some ⟨d1 - 48, d2 - 48, (p1 - 48) * 10 + (p2 - 48), flags⟩
             | none =>
               match matchTail (p2 :: rest2) with
               | some flags => some ⟨d1 - 48, d2 - 48, p1 - 48, flags⟩
               | none => none)
          else
            match matchTail (p2 :: rest2) with
            | some flags => some ⟨d1 - 48, d2 - 48, p1 - 48, flags⟩
            | none => none) = some v := h
        by_cases hp2 : isDigit p2
        · rw [if_pos hp2] at h'
          obtain ⟨h4a, h4b⟩ := hp2
          cases hmt : matchTail rest2 with
          | some flags =>
            simp only [hmt] at h'
            cases h'
            refine ⟨?_, ?_, ?_, ?_⟩
            · show d1 - 48 ≤ 9
              omega
            · show d2 - 48 ≤ 9
              omega
            · show (p1 - 48) * 10 + (p2 - 48) ≤ 99
              omega
            · show validFlags flags
              exact matchTail_valid _ _ hmt
          | none =>
            simp only [hmt] at h'
            cases hmt2 : matchTail (p2 :: rest2) with
            | some flags =>
              simp only [hmt2] at h'
              cases h'
              refine ⟨?_, ?_, ?_, ?_⟩
              · show d1 - 48 ≤ 9
                omega
              · show d2 - 48 ≤ 9
                omega
              · show p1 - 48 ≤ 99
                omega
              · show validFlags flags
                exact matchTail_valid _ _ hmt2
            | none =>
              simp only [hmt2] at h'
              cases h'
        · rw [if_neg hp2] at h'
          cases hmt2 : matchTail (p2 :: rest2) with
          | some flags =>
            simp only [hmt2] at h'
            cases h'
            refine ⟨?_, ?_, ?_, ?_⟩
            · show d1 - 48 ≤ 9
              omega
            · show d2 - 48 ≤ 9
              omega
            · show p1 - 48 ≤ 99
              omega
            · show validFlags flags
              exact matchTail_valid _ _ hmt2
          | none =>
            simp only [hmt2] at h'
            cases h'

/-- Every version produced at any scan position satisfies the bounds. -/
theorem scanAux_bounds (s : List Nat) : ∀ (ok : Bool) (v : Version),
    scanAux ok s = some v →
    v.major ≤ 9 ∧ v.minor ≤ 9 ∧ v.patch ≤ 99 ∧ validFlags v.release_flags := by
  induction s with
  | nil =>
    intro ok v h
    rw [scanAux] at h
    cases ok <;> simp [matchCore] at h
  | cons b rest ih =>
    intro ok v h
    rw [scanAux] at h
    cases hm : (if ok then matchCore (b :: rest) else none) with
    | some v2 =>
      rw [hm] at h
      cases h
      cases ok with
      | false => simp at hm
      | true => exact matchCore_bounds _ _ (by simpa using hm)
    | none =>
      rw [hm] at h
      exact ih _ v h

/-- C10: every `Version` successfully returned by `scan_bytes`, on any
input bytes, has major and minor at most 9 (single digits), patch at most
99 (at most two digits), and release flags that are empty or one of `a`,
`b`, `c`, `rc` followed by one or two digits. -/
theorem scan_bytes_range (data : List Nat) (v : Version)
    (h : scan_bytes data = some v) :
    v.major ≤ 9 ∧ v.minor ≤ 9 ∧ v.patch ≤ 99 ∧ validFlags v.release_flags :=
  scanAux_bounds data true v h

/-- Witness: the range theorem applied to the 2.7.10 test string. -/
theorem scan_bytes_range_witness :
    (⟨2, 7, 10, []⟩ : Version).major ≤ 9 ∧
    (⟨2, 7, 10, []⟩ : Version).minor ≤ 9 ∧
    (⟨2, 7, 10, []⟩ : Version).patch ≤ 99 ∧
    validFlags (⟨2, 7, 10, []⟩ : Version).release_flags :=
  scan_bytes_range (strBytes "2.7.10 (default)") ⟨2, 7, 10, []⟩ rfl

/-- Decimal formatting of a single-digit number is the one ASCII digit. -/
theorem natDecimal_le9 (n : Nat) (h : n ≤ 9) : natDecimal n = [48 + n] := by
  interval_cases n <;> rfl

/-- Decimal formatting of a two-digit number is its two ASCII digits. -/
theorem natDecimal_two (n : Nat) (h1 : 10 ≤ n) (h2 : n ≤ 99) :
    natDecimal n = [48 + n / 10, 48 + n % 10] := by
  interval_cases n <;> rfl

/-- Valid flags are empty or start with one of the four letter bytes. -/
theorem flags_head (fl : List Nat) (h : validFlags fl) :
    fl = [] ∨ ∃ c rest2, fl = c :: rest2 ∧
      (c = 97 ∨ c = 98 ∨ c = 99 ∨ c = 114) := by
  rcases h with rfl | ⟨c, d, hc, hd, rfl | ⟨d2, hd2, rfl⟩⟩ | ⟨d, hd, rfl | ⟨d2, hd2, rfl⟩⟩
  · exact Or.inl rfl
  · exact Or.inr ⟨c, [d], rfl, by tauto⟩
  · exact Or.inr ⟨c, [d, d2], rfl, by tauto⟩
  · exact Or.inr ⟨114, [99, d], rfl, by tauto⟩
  · exact Or.inr ⟨114, [99, d, d2], rfl, by tauto⟩

/-- The tail matcher captures a letter followed by one digit. -/
theorem matchTail_letter1 (c d : Nat) (hc : c = 97 ∨ c = 98 ∨ c = 99)
    (hd : isDigit d) :
    matchTail (c :: d :: 32 :: 40 :: []) = some [c, d] := by
  rcases hc with rfl | rfl | rfl <;>
    simp [matchTail, tryFlags, matchFlagDigits, matchSpaceRest, hd,
      (by decide : ¬ isDigit 32)]

/-- The tail matcher captures a letter followed by two digits. -/
theorem matchTail_letter2 (c d d2 : Nat) (hc : c = 97 ∨ c = 98 ∨ c = 99)
    (hd : isDigit d) (hd2 : isDigit d2) :
    matchTail (c :: d :: d2 :: 32 :: 40 :: []) = some [c, d, d2] := by
  rcases hc with rfl | rfl | rfl <;>
    simp [matchTail, tryFlags, matchFlagDigits, matchSpaceRest, hd, hd2]

/-- The tail matcher captures `rc` followed by one digit. -/
theorem matchTail_rc1 (d : Nat) (hd : isDigit d) :
    matchTail (114 :: 99 :: d :: 32 :: 40 :: []) = some [114, 99, d] := by
  simp [matchTail, tryFlags, matchFlagDigits, matchSpaceRest, hd,
    (by decide : ¬ isDigit 32)]

/-- The tail matcher captures `rc` followed by two digits. -/
theorem matchTail_rc2 (d d2 : Nat) (hd : isDigit d) (hd2 : isDigit d2) :
    matchTail (114 :: 99 :: d :: d2 :: 32 :: 40 :: []) =
      some [114, 99, d, d2] := by
  simp [matchTail, tryFlags, matchFlagDigits, matchSpaceRest, hd, hd2]

/-- The tail matcher recovers any valid flags followed by a space and one
more byte. -/
theorem matchTail_of_validFlags (fl : List Nat) (h : validFlags fl) :
    matchTail (fl ++ [32, 40]) = some fl := by
  rcases h with rfl | ⟨c, d, hc, hd, rfl | ⟨d2, hd2, rfl⟩⟩ | ⟨d, hd, rfl | ⟨d2, hd2, rfl⟩⟩
  · decide
  · exact matchTail_letter1 c d hc hd
  · exact matchTail_letter2 c d d2 hc hd hd2
  · exact matchTail_rc1 d hd
  · exact matchTail_rc2 d d2 hd hd2

/-- The regex core parses a formatted version with a one-digit patch. -/
theorem matchCore_fmt1 (M m p : Nat) (fl : List Nat) (hM : M ≤ 9) (hm : m ≤ 9)
    (hp : p ≤ 9) (hfl : validFlags fl) :
    matchCore ((48 + M) :: 46 :: (48 + m) :: 46 :: (48 + p) ::
        (fl ++ [32, 40])) = some ⟨M, m, p, fl⟩ := by
  have hdM : isDigit (48 + M) := ⟨by omega, by omega⟩
  have hdm : isDigit (48 + m) := ⟨by omega, by omega⟩
  have hdp : isDigit (48 + p) := ⟨by omega, by omega⟩
  have hmt := matchTail_of_validFlags fl hfl
  rcases flags_head fl hfl with rfl | ⟨c, rest2, rfl, hc⟩
  · simp only [List.nil_append] at hmt ⊢
    simp [matchCore, hdM, hdm, hdp, (by decide : ¬ isDigit 32), hmt]
  · have hnc : ¬ isDigit c := by
      rcases hc with rfl | rfl | rfl | rfl <;> decide
    simp only [List.cons_append] at hmt ⊢
    simp [matchCore, hdM, hdm, hdp, hnc, hmt]

/-- The regex core parses a formatted version with a two-digit patch,
preferring the greedy two-digit capture. -/
theorem matchCore_fmt2 (M m p : Nat) (fl : List Nat) (hM : M ≤ 9) (hm : m ≤ 9)
    (h10 : 10 ≤ p) (h99 : p ≤ 99) (hfl : validFlags fl) :
    matchCore ((48 + M) :: 46 :: (48 + m) :: 46 :: (48 + p / 10) ::
        (48 + p % 10) :: (fl ++ [32, 40])) = some ⟨M, m, p, fl⟩ := by
  have hdM : isDigit (48 + M) := ⟨by omega, by omega⟩
  have hdm : isDigit (48 + m) := ⟨by omega, by omega⟩
  have hdp1 : isDigit (48 + p / 10) := ⟨by omega, by omega⟩
  have hdp2 : isDigit (48 + p % 10) := ⟨by omega, by omega⟩
  have hmt := matchTail_of_validFlags fl hfl
  simp [matchCore, hdM, hdm, hdp1, hdp2, hmt]
  omega

/-- C6 counterexample: the bare formatted bytes of a valid version do not
scan back, because the regex demands a space and at least one further byte
after the version; `scan_bytes(format(2.7.10))` fails. -/
theorem version_roundtrip_cex :
    scan_bytes (fmtVersion ⟨2, 7, 10, []⟩) = none := rfl

/-- C6 (amended): formatting a valid version as
`major.minor.patch<release_flags>` and appending a space plus one more
byte (here an opening parenthesis, as in a real interpreter banner) scans
back to exactly the same version. -/
theorem version_roundtrip_amended (v : Version) (h : validVersion v) :
    scan_bytes (fmtVersion v ++ [32, 40]) = some v := by
  obtain ⟨M, m, p, fl⟩ := v
  obtain ⟨hM, hm, hp, hfl⟩ := h
  unfold scan_bytes fmtVersion
  rw [natDecimal_le9 M hM, natDecimal_le9 m hm]
  by_cases h9 : p ≤ 9
  · rw [natDecimal_le9 p h9]
    simp only [List.cons_append, List.nil_append, List.singleton_append,
      List.append_assoc]
    rw [scanAux]
    simp [matchCore_fmt1 M m p fl hM hm h9 hfl]
  · have h10 : 10 ≤ p := by omega
    rw [natDecimal_two p h10 hp]
    simp only [List.cons_append, List.nil_append, List.singleton_append,
      List.append_assoc]
    rw [scanAux]
    simp [matchCore_fmt2 M m p fl hM hm h10 hp hfl]

/-- Witness: the amended roundtrip theorem applied to version 3.7.0rc1. -/
theorem version_roundtrip_witness :
    scan_bytes (fmtVersion ⟨3, 7, 0, [114, 99, 49]⟩ ++ [32, 40]) =
      some ⟨3, 7, 0, [114, 99, 49]⟩ :=
  version_roundtrip_amended ⟨3, 7, 0, [114, 99, 49]⟩
    ⟨by decide, by decide, by decide,
      Or.inr (Or.inr ⟨49, ⟨by decide, by decide⟩, Or.inl rfl⟩)⟩

end PySpy
